import Mathlib

/-!
Verification of the `write_queue` module of capnp-futures-rs
(`src/write_queue.rs`), a single-threaded cooperative write queue:
any number of `Sender` handles enqueue messages into a shared FIFO,
and the `WriteQueue` driver writes them to a sink one at a time,
resolving a oneshot completion per message.

Shallow embedding. The whole system (the `Rc<RefCell<Inner>>` shared by
every `Sender` and the `WriteQueue`, plus the driver state) is one record
`Sys`. The cooperative scheduling model of the spec means exactly one of
{`send`, `clone`, `drop`, `poll`} runs at an instant, so each is a pure
function on `Sys`. The opaque asynchronous write (`serialize::Write`,
whose module is not under `src/`) is driven by an explicit oracle list:
each time the driver polls the in-flight write, one oracle entry says
whether it is still pending, finished, or failed.

Ghost state (not in the Rust, recording observable events):
  `nextToken`   - allocator for oneshot completion tokens (`futures::oneshot`),
  `sendLog`     - `(message, token)` pairs in the order `send` was called,
  `writeStarts` - pairs in the order the driver began writing them,
  `completions` - pairs in the order `complete.complete(m)` was called,
  `wakeEvents`  - number of `task.unpark()` calls.
-/

namespace CapnpWriteQueue

/-- Shared state behind the `Rc<RefCell<Inner<M>>>`: the pending FIFO of
`(message, completion)` pairs (`VecDeque` as a list, head = front), the
live-handle count, and the parked task slot. Completions (`Complete<M>`)
are represented by their token ids. -/
structure Inner (M : Type) where
  queue : List (M × Nat)
  sender_count : Nat
  task : Option Unit
deriving DecidableEq

/-- Modelled from the spec: `serialize::write_message(w, m)` (module
`serialize` is not under `src/`). The sink contract says the asynchronous
write-one-message operation "must, on success, return ownership of both
the sink and the message that was written"; so the in-flight operation is
represented by exactly the pair it owns and will yield. -/
def write_message {W M : Type} (w : W) (m : M) : W × M := (w, m)

/-- Driver state machine from `write_queue.rs`: `Writing` holds the
in-flight `serialize::Write` operation (the sink/message pair it owns)
and the message's completion token; `BetweenWrites` holds the sink;
`Empty` is the transient marker installed by `mem::replace`. -/
inductive State (W M : Type) where
  | Writing : W × M → Nat → State W M
  | BetweenWrites : W → State W M
  | Empty : State W M
deriving DecidableEq

/-- The whole system: shared `Inner`, driver `State`, and ghost logs. -/
structure Sys (W M : Type) where
  inner : Inner M
  state : State W M
  nextToken : Nat
  sendLog : List (M × Nat)
  writeStarts : List (M × Nat)
  completions : List (M × Nat)
  wakeEvents : Nat
deriving DecidableEq

/-- Outcome of one oracle step for the in-flight write operation:
still pending, finished (yields the owned sink/message pair), or failed
with error `e`. -/
inductive WritePollR (E : Type) where
  | ready : WritePollR E
  | notReady : WritePollR E
  | err : E → WritePollR E
deriving DecidableEq

/-- Result of one call to `WriteQueue::poll`: `ready w` is terminal
success yielding the sink, `notReady` suspends, `err e` is terminal
failure, and `stuck` marks that an `unreachable!` branch executed. -/
inductive PollOutcome (W E : Type) where
  | ready : W → PollOutcome W E
  | notReady : PollOutcome W E
  | err : E → PollOutcome W E
  | stuck : PollOutcome W E
deriving DecidableEq

/-- Constructor `write_queue(writer)`: fresh shared state with an empty
queue, one live sender, no parked task; the driver starts in
`BetweenWrites(writer)`. The returned `Sender` and `WriteQueue` both
point at the same shared state, which is the `Sys` itself. -/
def write_queue {W M : Type} (w : W) : Sys W M :=
  { inner := { queue := [], sender_count := 1, task := none }
    state := State.BetweenWrites w
    nextToken := 0
    sendLog := []
    writeStarts := []
    completions := []
    wakeEvents := 0 }

/-- `Sender::send`: make a oneshot (a fresh token), push the pair at the
tail of the queue, then `task.take()` - if a task was parked, unpark it
(one wake event) and leave the slot empty. Returns the oneshot token. -/
def send {W M : Type} (m : M) (s : Sys W M) : Nat × Sys W M :=
  let tok := s.nextToken
  let inner1 : Inner M := { s.inner with queue := s.inner.queue ++ [(m, tok)] }
  match inner1.task with
  | some _ =>
    (tok, { s with
      inner := { inner1 with task := none }
      nextToken := tok + 1
      sendLog := s.sendLog ++ [(m, tok)]
      wakeEvents := s.wakeEvents + 1 })
  | none =>
    (tok, { s with
      inner := inner1
      nextToken := tok + 1
      sendLog := s.sendLog ++ [(m, tok)] })

/-- `Sender::len`: the current length of the shared queue. -/
def len {W M : Type} (s : Sys W M) : Nat :=
  s.inner.queue.length

/-- `Clone for Sender`: increment `sender_count`; nothing else. -/
def cloneSender {W M : Type} (s : Sys W M) : Sys W M :=
  { s with inner := { s.inner with sender_count := s.inner.sender_count + 1 } }

/-- `Drop for Sender`: decrement `sender_count`; nothing else. -/
def dropSender {W M : Type} (s : Sys W M) : Sys W M :=
  { s with inner := { s.inner with sender_count := s.inner.sender_count - 1 } }

/-- `WriteQueue::poll`: the driver loop. In `Writing`, poll the in-flight
write against the oracle head (`try_ready!`): pending yields `notReady`,
failure returns the error unchanged, success is `WriteDone` - resolve the
completion with the returned message, move to `BetweenWrites`, and loop.
In `BetweenWrites`, pop the queue front: a pair means `StartWrite` - move
to `Writing` via `write_message` and loop; an empty queue means `Resolve`
(terminal success, leaving the `mem::replace`d `Empty` behind) when
`sender_count == 0`, else park the task and yield. The Rust transition
`match` re-examines `self.state`, unchanged since the first `match`, so
its three `unreachable!` arms correspond to no case here; the
`State::Empty` arm at the top of the loop is the `stuck` outcome.
Returns (outcome, system, unconsumed oracle). An exhausted oracle means
the in-flight write is still pending. -/
def pollLoop {W M E : Type} (oracle : List (WritePollR E)) (s : Sys W M) :
    PollOutcome W E × Sys W M × List (WritePollR E) :=
  match h1 : s.state with
  | State.Empty => (PollOutcome.stuck, s, oracle)
  | State.Writing op tok =>
    match oracle with
    | [] => (PollOutcome.notReady, s, [])
    | WritePollR.notReady :: rest => (PollOutcome.notReady, s, rest)
    | WritePollR.err e :: rest => (PollOutcome.err e, s, rest)
    | WritePollR.ready :: rest =>
      pollLoop rest { s with
        state := State.BetweenWrites op.1
        completions := s.completions ++ [(op.2, tok)] }
  | State.BetweenWrites w =>
    match h2 : s.inner.queue with
    | (m, tok) :: restQ =>
      pollLoop oracle { s with
        inner := { s.inner with queue := restQ }
        state := State.Writing (write_message w m) tok
        writeStarts := s.writeStarts ++ [(m, tok)] }
    | [] =>
      if s.inner.sender_count = 0 then
        (PollOutcome.ready w, { s with state := State.Empty }, oracle)
      else
        (PollOutcome.notReady,
         { s with inner := { s.inner with task := some () } }, oracle)
termination_by oracle.length + s.inner.queue.length
decreasing_by
  · simp
  · simp [h2]

/-- The message/token pair whose write is currently in flight, if any. -/
def inflight {W M : Type} : State W M → List (M × Nat)
  | State.Writing op tok => [(op.2, tok)]
  | _ => []

/-- Ghost-log invariant tying the logs to the live data: the send log
splits into the started writes followed by the still-queued pairs; the
started writes split into the resolved completions followed by the
in-flight pair; and the tokens of the send log are exactly
`0, 1, ..., nextToken - 1` in order. -/
def Inv {W M : Type} (s : Sys W M) : Prop :=
  s.sendLog = s.writeStarts ++ s.inner.queue
  ∧ s.writeStarts = s.completions ++ inflight s.state
  ∧ s.sendLog.map Prod.snd = List.range s.nextToken

/-- States reachable from `write_queue`'s initial state by any sequence
of `send`, `clone`, `drop`, and `poll`, where (per the executor contract)
the driver is polled again only after a `notReady` result, never after a
terminal result. -/
inductive Reachable {W M : Type} : Sys W M → Prop where
  | init (w : W) : Reachable (write_queue w)
  | step_send (m : M) {s : Sys W M} : Reachable s → Reachable (send m s).2
  | step_clone {s : Sys W M} : Reachable s → Reachable (cloneSender s)
  | step_drop {s : Sys W M} : Reachable s → Reachable (dropSender s)
  | step_poll {E : Type} (oracle : List (WritePollR E)) {s : Sys W M} :
      Reachable s → (pollLoop oracle s).1 = PollOutcome.notReady →
      Reachable (pollLoop oracle s).2.1

/-- Concrete system in the `Writing` state (message 3, token 0 in flight,
message 4, token 1 still queued), used to exercise the error path. -/
def exWriting : Sys Nat Nat :=
  { inner := { queue := [(4, 1)], sender_count := 1, task := none }
    state := State.Writing (0, 3) 0
    nextToken := 2
    sendLog := [(3, 0), (4, 1)]
    writeStarts := [(3, 0)]
    completions := []
    wakeEvents := 0 }

/-- Concrete run: one message sent on the fresh queue. -/
def exSent : Sys Nat Nat := (send 3 (write_queue 0)).2

/-- Concrete run: after the send, the driver polled once with the write
still pending (it popped the message and started its write). -/
def exPolled : Sys Nat Nat := (pollLoop (E := Nat) [] exSent).2.1

/-- Concrete run: the driver polled on a fresh queue with no pending
message and one live sender (it parked its task). -/
def exParked : Sys Nat Nat := (pollLoop (E := Nat) [] (write_queue 0)).2.1

/-- Unfolding: the `State::Empty` arm of the loop is `unreachable!`. -/
theorem pollLoop_empty_state {W M E : Type} (oracle : List (WritePollR E)) (s : Sys W M)
    (h : s.state = State.Empty) :
    pollLoop oracle s = (PollOutcome.stuck, s, oracle) := by
  obtain ⟨inn, st, nt, sl, ws, cs, we⟩ := s
  simp only [] at h
  subst h
  conv_lhs => rw [pollLoop]

/-- Unfolding: an exhausted oracle leaves the in-flight write pending. -/
theorem pollLoop_writing_nil {W M E : Type} (s : Sys W M) (op : W × M) (tok : Nat)
    (h : s.state = State.Writing op tok) :
    pollLoop (E := E) [] s = (PollOutcome.notReady, s, []) := by
  obtain ⟨inn, st, nt, sl, ws, cs, we⟩ := s
  simp only [] at h
  subst h
  conv_lhs => rw [pollLoop]

/-- Unfolding: a pending in-flight write makes `poll` yield `NotReady`
(`try_ready!`), leaving all state untouched. -/
theorem pollLoop_writing_notReady {W M E : Type} (s : Sys W M) (op : W × M) (tok : Nat)
    (h : s.state = State.Writing op tok) (rest : List (WritePollR E)) :
    pollLoop (WritePollR.notReady :: rest) s = (PollOutcome.notReady, s, rest) := by
  obtain ⟨inn, st, nt, sl, ws, cs, we⟩ := s
  simp only [] at h
  subst h
  conv_lhs => rw [pollLoop]

/-- Unfolding: a failed in-flight write makes `poll` return the error
unchanged (`try_ready!` propagates `Err`), leaving all state untouched:
no completion is resolved and the queue is untouched. -/
theorem pollLoop_writing_err {W M E : Type} (s : Sys W M) (op : W × M) (tok : Nat)
    (h : s.state = State.Writing op tok) (e : E) (rest : List (WritePollR E)) :
    pollLoop (WritePollR.err e :: rest) s = (PollOutcome.err e, s, rest) := by
  obtain ⟨inn, st, nt, sl, ws, cs, we⟩ := s
  simp only [] at h
  subst h
  conv_lhs => rw [pollLoop]

/-- Unfolding: a completed write (`WriteDone`) resolves the completion
with the message the write operation returned and moves the driver to
`BetweenWrites` with the returned sink, then the loop continues. -/
theorem pollLoop_writing_ready {W M E : Type} (s : Sys W M) (op : W × M) (tok : Nat)
    (h : s.state = State.Writing op tok) (rest : List (WritePollR E)) :
    pollLoop (WritePollR.ready :: rest) s =
      pollLoop rest { s with state := State.BetweenWrites op.1,
                             completions := s.completions ++ [(op.2, tok)] } := by
  obtain ⟨inn, st, nt, sl, ws, cs, we⟩ := s
  simp only [] at h
  subst h
  conv_lhs => rw [pollLoop]

/-- Unfolding: with a non-empty queue, `BetweenWrites` pops the front
pair and starts its write (`StartWrite`), then the loop continues. -/
theorem pollLoop_between_cons {W M E : Type} (oracle : List (WritePollR E)) (s : Sys W M)
    (w : W) (m : M) (tok : Nat) (restQ : List (M × Nat))
    (h : s.state = State.BetweenWrites w) (hq : s.inner.queue = (m, tok) :: restQ) :
    pollLoop oracle s =
      pollLoop oracle { s with
        inner := { s.inner with queue := restQ }
        state := State.Writing (write_message w m) tok
        writeStarts := s.writeStarts ++ [(m, tok)] } := by
  obtain ⟨⟨q, sc, tk⟩, st, nt, sl, ws, cs, we⟩ := s
  simp only [] at h hq
  subst h; subst hq
  conv_lhs => rw [pollLoop]

/-- Unfolding: with an empty queue and no live sender, the driver
resolves terminally with the sink (`Resolve`), leaving the transient
`Empty` marker behind. -/
theorem pollLoop_between_resolve {W M E : Type} (oracle : List (WritePollR E)) (s : Sys W M)
    (w : W) (h : s.state = State.BetweenWrites w) (hq : s.inner.queue = [])
    (hc : s.inner.sender_count = 0) :
    pollLoop oracle s = (PollOutcome.ready w, { s with state := State.Empty }, oracle) := by
  obtain ⟨⟨q, sc, tk⟩, st, nt, sl, ws, cs, we⟩ := s
  simp only [] at h hq hc
  subst h; subst hq; subst hc
  conv_lhs => rw [pollLoop]
  simp

/-- Unfolding: with an empty queue and a live sender, the driver parks
its task and yields `NotReady`. -/
theorem pollLoop_between_park {W M E : Type} (oracle : List (WritePollR E)) (s : Sys W M)
    (w : W) (h : s.state = State.BetweenWrites w) (hq : s.inner.queue = [])
    (hc : s.inner.sender_count ≠ 0) :
    pollLoop oracle s =
      (PollOutcome.notReady, { s with inner := { s.inner with task := some () } }, oracle) := by
  obtain ⟨⟨q, sc, tk⟩, st, nt, sl, ws, cs, we⟩ := s
  simp only [] at h hq hc
  subst h; subst hq
  conv_lhs => rw [pollLoop]
  simp [hc]

/-- Effect of `Sender::send` on every field: the fresh token is returned,
the pair goes to the tail of the queue, the task slot ends up empty (it
is either already empty or taken and unparked), and nothing else of the
shared or driver state changes. -/
theorem send_frame {W M : Type} (m : M) (s : Sys W M) :
    (send m s).1 = s.nextToken
    ∧ (send m s).2.inner.queue = s.inner.queue ++ [(m, s.nextToken)]
    ∧ (send m s).2.inner.sender_count = s.inner.sender_count
    ∧ (send m s).2.inner.task = none
    ∧ (send m s).2.state = s.state
    ∧ (send m s).2.nextToken = s.nextToken + 1
    ∧ (send m s).2.sendLog = s.sendLog ++ [(m, s.nextToken)]
    ∧ (send m s).2.writeStarts = s.writeStarts
    ∧ (send m s).2.completions = s.completions := by
  cases ht : s.inner.task <;> simp [send, ht]

/-- The initial state satisfies the ghost-log invariant. -/
theorem inv_write_queue {W M : Type} (w : W) : Inv (write_queue (M := M) w) := by
  simp [Inv, write_queue, inflight]

/-- `send` preserves the ghost-log invariant. -/
theorem inv_send {W M : Type} (m : M) (s : Sys W M) (h : Inv s) : Inv (send m s).2 := by
  obtain ⟨i1, i2, i3⟩ := h
  obtain ⟨-, hq, -, -, hst, hnt, hsl, hws, hcs⟩ := send_frame m s
  refine ⟨?_, ?_, ?_⟩
  · rw [hsl, hq, hws, i1, List.append_assoc]
  · rw [hws, hcs, hst, i2]
  · rw [hsl, hnt, List.map_append, i3, List.range_succ]
    simp

/-- `Clone for Sender` preserves the ghost-log invariant. -/
theorem inv_clone {W M : Type} (s : Sys W M) (h : Inv s) : Inv (cloneSender s) := by
  obtain ⟨i1, i2, i3⟩ := h
  exact ⟨i1, i2, i3⟩

/-- `Drop for Sender` preserves the ghost-log invariant. -/
theorem inv_drop {W M : Type} (s : Sys W M) (h : Inv s) : Inv (dropSender s) := by
  obtain ⟨i1, i2, i3⟩ := h
  exact ⟨i1, i2, i3⟩

/-- `WriteQueue::poll` preserves the ghost-log invariant, whatever the
oracle says about the in-flight writes. -/
theorem inv_pollLoop {W M E : Type} (oracle : List (WritePollR E)) (s : Sys W M) :
    Inv s → Inv (pollLoop oracle s).2.1 := by
  induction oracle, s using pollLoop.induct with
  | case1 oracle s hst =>
    intro h; rw [pollLoop_empty_state oracle s hst]; exact h
  | case2 s op tok hst =>
    intro h; rw [pollLoop_writing_nil s op tok hst]; exact h
  | case3 s op tok hst rest =>
    intro h; rw [pollLoop_writing_notReady s op tok hst rest]; exact h
  | case4 s op tok hst e rest =>
    intro h; rw [pollLoop_writing_err s op tok hst e rest]; exact h
  | case5 s op tok hst rest ih =>
    intro h
    obtain ⟨i1, i2, i3⟩ := h
    rw [pollLoop_writing_ready s op tok hst rest]
    refine ih ⟨i1, ?_, i3⟩
    rw [hst] at i2
    simpa [inflight] using i2
  | case6 oracle s w hst m tok restQ hq ih =>
    intro h
    obtain ⟨i1, i2, i3⟩ := h
    rw [pollLoop_between_cons oracle s w m tok restQ hst hq]
    rw [hst] at i2
    refine ih ⟨?_, ?_, i3⟩
    · rw [i1, hq]
      simp
    · simp only [inflight, write_message]
      simpa [inflight] using i2
  | case7 oracle s w hst hq hc =>
    intro h
    obtain ⟨i1, i2, i3⟩ := h
    rw [pollLoop_between_resolve oracle s w hst hq hc]
    rw [hst] at i2
    exact ⟨i1, by simpa [inflight] using i2, i3⟩
  | case8 oracle s w hst hq hc =>
    intro h
    obtain ⟨i1, i2, i3⟩ := h
    rw [pollLoop_between_park oracle s w hst hq hc]
    exact ⟨i1, by simpa [inflight, hst] using i2, i3⟩

/-- Every reachable state satisfies the ghost-log invariant. -/
theorem reachable_inv {W M : Type} {s : Sys W M} (h : Reachable s) : Inv s := by
  induction h with
  | init w => exact inv_write_queue w
  | step_send m hr ih => exact inv_send _ _ ih
  | step_clone hr ih => exact inv_clone _ ih
  | step_drop hr ih => exact inv_drop _ ih
  | step_poll oracle hr hnr ih => exact inv_pollLoop _ _ ih

/-- Terminal success happens only through the `Resolve` branch: whenever
`poll` returns `Ready(sink)`, the queue was empty and the sender count
zero at the moment the empty-queue branch was evaluated, and both are
still so in the resulting state. -/
theorem pollLoop_ready_post {W M E : Type} (oracle : List (WritePollR E)) (s : Sys W M) :
    ∀ w, (pollLoop oracle s).1 = PollOutcome.ready w →
      (pollLoop oracle s).2.1.inner.queue = [] ∧
      (pollLoop oracle s).2.1.inner.sender_count = 0 := by
  induction oracle, s using pollLoop.induct with
  | case1 oracle s hst =>
    rw [pollLoop_empty_state oracle s hst]; simp
  | case2 s op tok hst =>
    rw [pollLoop_writing_nil s op tok hst]; simp
  | case3 s op tok hst rest =>
    rw [pollLoop_writing_notReady s op tok hst rest]; simp
  | case4 s op tok hst e rest =>
    rw [pollLoop_writing_err s op tok hst e rest]; simp
  | case5 s op tok hst rest ih =>
    rw [pollLoop_writing_ready s op tok hst rest]; exact ih
  | case6 oracle s w hst m tok restQ hq ih =>
    rw [pollLoop_between_cons oracle s w m tok restQ hst hq]; exact ih
  | case7 oracle s w hst hq hc =>
    rw [pollLoop_between_resolve oracle s w hst hq hc]
    intro w2 _
    exact ⟨hq, hc⟩
  | case8 oracle s w hst hq hc =>
    rw [pollLoop_between_park oracle s w hst hq hc]; simp

/-- C6: the driver registers a suspension continuation and yields
`NotReady` only in states where the pending queue is empty and the
live-handle count is strictly positive: every call to `poll` either
leaves the task slot exactly as it was, or parks - and then the queue is
empty, the sender count is non-zero, and the call yielded `NotReady`.
At most one continuation is stored at a time since the slot is an
`Option`, and `send` takes it out atomically with invocation
(`send_frame` shows the slot is empty after a send). -/
theorem suspend_only_when_idle {W M E : Type} (oracle : List (WritePollR E)) (s : Sys W M) :
    (pollLoop oracle s).2.1.inner.task = s.inner.task
    ∨ ((pollLoop oracle s).1 = PollOutcome.notReady
       ∧ (pollLoop oracle s).2.1.inner.task = some ()
       ∧ (pollLoop oracle s).2.1.inner.queue = []
       ∧ (pollLoop oracle s).2.1.inner.sender_count ≠ 0) := by
  induction oracle, s using pollLoop.induct with
  | case1 oracle s hst =>
    rw [pollLoop_empty_state oracle s hst]; left; rfl
  | case2 s op tok hst =>
    rw [pollLoop_writing_nil s op tok hst]; left; rfl
  | case3 s op tok hst rest =>
    rw [pollLoop_writing_notReady s op tok hst rest]; left; rfl
  | case4 s op tok hst e rest =>
    rw [pollLoop_writing_err s op tok hst e rest]; left; rfl
  | case5 s op tok hst rest ih =>
    rw [pollLoop_writing_ready s op tok hst rest]; simpa using ih
  | case6 oracle s w hst m tok restQ hq ih =>
    rw [pollLoop_between_cons oracle s w m tok restQ hst hq]; simpa using ih
  | case7 oracle s w hst hq hc =>
    rw [pollLoop_between_resolve oracle s w hst hq hc]; left; rfl
  | case8 oracle s w hst hq hc =>
    rw [pollLoop_between_park oracle s w hst hq hc]
    right
    exact ⟨rfl, rfl, hq, hc⟩

/-- When the driver is entered in a non-`Empty` state, no `unreachable!`
branch executes during the whole call. -/
theorem pollLoop_no_stuck {W M E : Type} (oracle : List (WritePollR E)) (s : Sys W M) :
    s.state ≠ State.Empty → (pollLoop oracle s).1 ≠ PollOutcome.stuck := by
  induction oracle, s using pollLoop.induct with
  | case1 oracle s hst =>
    intro h; exact absurd hst h
  | case2 s op tok hst =>
    intro h; rw [pollLoop_writing_nil s op tok hst]; simp
  | case3 s op tok hst rest =>
    intro h; rw [pollLoop_writing_notReady s op tok hst rest]; simp
  | case4 s op tok hst e rest =>
    intro h; rw [pollLoop_writing_err s op tok hst e rest]; simp
  | case5 s op tok hst rest ih =>
    intro h; rw [pollLoop_writing_ready s op tok hst rest]
    exact ih (by simp)
  | case6 oracle s w hst m tok restQ hq ih =>
    intro h; rw [pollLoop_between_cons oracle s w m tok restQ hst hq]
    exact ih (by simp)
  | case7 oracle s w hst hq hc =>
    intro h; rw [pollLoop_between_resolve oracle s w hst hq hc]; simp
  | case8 oracle s w hst hq hc =>
    intro h; rw [pollLoop_between_park oracle s w hst hq hc]; simp

/-- A `NotReady` result leaves the driver in a non-`Empty` state (either
still `Writing`, or `BetweenWrites` after parking). -/
theorem pollLoop_notReady_state {W M E : Type} (oracle : List (WritePollR E)) (s : Sys W M) :
    s.state ≠ State.Empty → (pollLoop oracle s).1 = PollOutcome.notReady →
      (pollLoop oracle s).2.1.state ≠ State.Empty := by
  induction oracle, s using pollLoop.induct with
  | case1 oracle s hst =>
    intro h; exact absurd hst h
  | case2 s op tok hst =>
    intro h _; rw [pollLoop_writing_nil s op tok hst]; simp [hst]
  | case3 s op tok hst rest =>
    intro h _; rw [pollLoop_writing_notReady s op tok hst rest]; simp [hst]
  | case4 s op tok hst e rest =>
    intro h; rw [pollLoop_writing_err s op tok hst e rest]; simp
  | case5 s op tok hst rest ih =>
    intro h; rw [pollLoop_writing_ready s op tok hst rest]
    exact ih (by simp)
  | case6 oracle s w hst m tok restQ hq ih =>
    intro h; rw [pollLoop_between_cons oracle s w m tok restQ hst hq]
    exact ih (by simp)
  | case7 oracle s w hst hq hc =>
    intro h; rw [pollLoop_between_resolve oracle s w hst hq hc]; simp
  | case8 oracle s w hst hq hc =>
    intro h _; rw [pollLoop_between_park oracle s w hst hq hc]; simp [hst]

/-- Every reachable state has the driver in `Writing` or `BetweenWrites`:
the transient `Empty` marker is never observable across a poll boundary. -/
theorem reachable_state_ne {W M : Type} {s : Sys W M} (h : Reachable s) :
    s.state ≠ State.Empty := by
  induction h with
  | init w => simp [write_queue]
  | step_send m hr ih =>
    obtain ⟨-, -, -, -, hst, -, -, -, -⟩ := send_frame _ _
    rw [hst]; exact ih
  | step_clone hr ih => exact ih
  | step_drop hr ih => exact ih
  | step_poll oracle hr hnr ih => exact pollLoop_notReady_state _ _ ih hnr

/-- C1: global FIFO across all handles. In every reachable state, the
send log (pairs in the order the `send` calls returned) is exactly the
writes the driver has begun, in begin order, followed by the pairs still
queued; hence the i-th message popped and written is the i-th message
enqueued, and the same holds of the message values alone. -/
theorem fifo_order {W M : Type} {s : Sys W M} (h : Reachable s) :
    s.sendLog = s.writeStarts ++ s.inner.queue
    ∧ s.sendLog.map Prod.fst = s.writeStarts.map Prod.fst ++ s.inner.queue.map Prod.fst := by
  obtain ⟨i1, -, -⟩ := reachable_inv h
  exact ⟨i1, by rw [i1, List.map_append]⟩

/-- Witness for C1 at a concrete reachable state: one send, one poll. -/
theorem fifo_order_witness :
    exPolled.sendLog = exPolled.writeStarts ++ exPolled.inner.queue
    ∧ exPolled.sendLog.map Prod.fst
        = exPolled.writeStarts.map Prod.fst ++ exPolled.inner.queue.map Prod.fst :=
  fifo_order (Reachable.step_poll [] (Reachable.step_send 3 (Reachable.init 0))
    (by simp [exSent, pollLoop, send, write_queue]))

/-- C2: the driver returns terminal success, yielding the sink, if and
only if the pending queue is empty and the sender count is zero when the
empty-queue branch is evaluated: a `Ready` result implies the queue is
empty and the count zero (so it never terminates with a message still
pending), and conversely from `BetweenWrites` with an empty queue and
zero count the call resolves with the sink. -/
theorem poll_terminal_iff {W M E : Type} (oracle : List (WritePollR E)) (s : Sys W M) :
    (∀ w, (pollLoop oracle s).1 = PollOutcome.ready w →
        (pollLoop oracle s).2.1.inner.queue = [] ∧
        (pollLoop oracle s).2.1.inner.sender_count = 0)
    ∧ (∀ w, s.state = State.BetweenWrites w → s.inner.queue = [] →
        s.inner.sender_count = 0 → (pollLoop oracle s).1 = PollOutcome.ready w) :=
  ⟨pollLoop_ready_post oracle s,
   fun w h1 h2 h3 => by rw [pollLoop_between_resolve oracle s w h1 h2 h3]⟩

/-- Witness for C2: dropping the only sender of a fresh queue makes the
next poll resolve with the sink. -/
theorem poll_terminal_iff_witness :
    (pollLoop (E := Nat) [] (dropSender (write_queue (M := Nat) (0 : Nat)))).1
      = PollOutcome.ready 0 :=
  (poll_terminal_iff [] (dropSender (write_queue 0))).2 0 rfl rfl rfl

/-- C3: exactly-once completion. In every reachable state the resolved
completions carry pairwise distinct tokens (no token resolves twice),
every resolved `(message, token)` pair is literally one of the enqueued
pairs (the token resolves with the same message value that its `send`
enqueued), and the resolved completions are exactly the begun writes
minus the at-most-one still in flight (each finished write is resolved). -/
theorem exactly_once_completion {W M : Type} {s : Sys W M} (h : Reachable s) :
    (s.completions.map Prod.snd).Nodup
    ∧ (∀ p ∈ s.completions, p ∈ s.sendLog)
    ∧ s.writeStarts = s.completions ++ inflight s.state := by
  obtain ⟨i1, i2, i3⟩ := reachable_inv h
  have hnd : (s.sendLog.map Prod.snd).Nodup := by rw [i3]; exact List.nodup_range _
  have hsplit : s.sendLog = s.completions ++ (inflight s.state ++ s.inner.queue) := by
    rw [i1, i2, List.append_assoc]
  refine ⟨?_, ?_, i2⟩
  · rw [hsplit, List.map_append] at hnd
    exact hnd.of_append_left
  · intro p hp
    rw [hsplit]
    exact List.mem_append_left _ hp

/-- Witness for C3 at a concrete reachable state: one send, one poll. -/
theorem exactly_once_completion_witness :
    (exPolled.completions.map Prod.snd).Nodup
    ∧ (∀ p ∈ exPolled.completions, p ∈ exPolled.sendLog)
    ∧ exPolled.writeStarts = exPolled.completions ++ inflight exPolled.state :=
  exactly_once_completion (Reachable.step_poll [] (Reachable.step_send 3 (Reachable.init 0))
    (by simp [exSent, pollLoop, send, write_queue]))

/-- C4: single in-flight write and strict completion ordering. In every
reachable state the begun writes are the resolved completions followed
by the at-most-one in-flight write: so a completion is appended only
once its write has finished, the next write begins only after the
previous one is resolved, and the pair in flight is never already
resolved. -/
theorem single_inflight {W M : Type} {s : Sys W M} (h : Reachable s) :
    s.writeStarts = s.completions ++ inflight s.state
    ∧ (inflight s.state).length ≤ 1
    ∧ ∀ (op : W × M) (tok : Nat), s.state = State.Writing op tok →
        (op.2, tok) ∉ s.completions := by
  obtain ⟨i1, i2, i3⟩ := reachable_inv h
  refine ⟨i2, ?_, ?_⟩
  · cases s.state <;> simp [inflight]
  · intro op tok hst hmem
    have hnd : (s.sendLog.map Prod.snd).Nodup := by rw [i3]; exact List.nodup_range _
    have h1 : (s.writeStarts.map Prod.snd).Nodup := by
      rw [i1, List.map_append] at hnd
      exact hnd.of_append_left
    rw [i2, hst] at h1
    simp only [inflight, List.map_append] at h1
    have hdisj := List.disjoint_of_nodup_append h1
    exact hdisj (List.mem_map_of_mem Prod.snd hmem) (by simp)

/-- Witness for C4 at a concrete reachable state with a write in flight. -/
theorem single_inflight_witness :
    exPolled.writeStarts = exPolled.completions ++ inflight exPolled.state
    ∧ (inflight exPolled.state).length ≤ 1
    ∧ ∀ (op : Nat × Nat) (tok : Nat), exPolled.state = State.Writing op tok →
        (op.2, tok) ∉ exPolled.completions :=
  single_inflight (Reachable.step_poll [] (Reachable.step_send 3 (Reachable.init 0))
    (by simp [exSent, pollLoop, send, write_queue]))

/-- C5: `send` appends the pair at the tail, then (and only then) takes
and invokes the parked task, then returns the fresh token immediately:
after a send the task slot is always empty, and if the driver was parked
the wake is delivered with the queue non-empty at that moment (the
freshly appended pair is in it), so no enqueue while suspended is ever
missed; with no parked task no wake happens. -/
theorem send_wakes_nonempty {W M : Type} (m : M) (s : Sys W M) :
    (send m s).1 = s.nextToken
    ∧ (send m s).2.inner.queue = s.inner.queue ++ [(m, (send m s).1)]
    ∧ (send m s).2.inner.task = none
    ∧ (s.inner.task = some () →
        (send m s).2.wakeEvents = s.wakeEvents + 1 ∧ (send m s).2.inner.queue ≠ [])
    ∧ (s.inner.task = none → (send m s).2.wakeEvents = s.wakeEvents) := by
  cases ht : s.inner.task <;> simp [send, ht]

/-- Witness for C5: sending to a queue whose driver is parked. -/
theorem send_wakes_nonempty_witness :
    (send 7 exParked).1 = exParked.nextToken
    ∧ (send 7 exParked).2.inner.queue = exParked.inner.queue ++ [(7, (send 7 exParked).1)]
    ∧ (send 7 exParked).2.inner.task = none
    ∧ (exParked.inner.task = some () →
        (send 7 exParked).2.wakeEvents = exParked.wakeEvents + 1
        ∧ (send 7 exParked).2.inner.queue ≠ [])
    ∧ (exParked.inner.task = none → (send 7 exParked).2.wakeEvents = exParked.wakeEvents) :=
  send_wakes_nonempty 7 exParked

/-- Witness for C6: polling a fresh queue (empty queue, one live sender)
parks the task and yields `NotReady`. -/
theorem suspend_only_when_idle_witness :
    (pollLoop (E := Nat) [] (write_queue (M := Nat) (0 : Nat))).2.1.inner.task
        = (write_queue (M := Nat) (0 : Nat)).inner.task
    ∨ ((pollLoop (E := Nat) [] (write_queue (M := Nat) (0 : Nat))).1 = PollOutcome.notReady
       ∧ (pollLoop (E := Nat) [] (write_queue (M := Nat) (0 : Nat))).2.1.inner.task = some ()
       ∧ (pollLoop (E := Nat) [] (write_queue (M := Nat) (0 : Nat))).2.1.inner.queue = []
       ∧ (pollLoop (E := Nat) [] (write_queue (M := Nat) (0 : Nat))).2.1.inner.sender_count
            ≠ 0) :=
  suspend_only_when_idle [] (write_queue 0)

/-- C7: a failed in-flight write is fatal and unretried: `poll` returns
the error unchanged as its terminal result, and the whole system state
is exactly as before the call - the failed message's completion is not
resolved, no completion is, and the pending queue (whose messages are
never written, the run being over) is untouched. -/
theorem write_failure_fatal {W M E : Type} (s : Sys W M) (op : W × M) (tok : Nat)
    (h : s.state = State.Writing op tok) (e : E) (rest : List (WritePollR E)) :
    pollLoop (WritePollR.err e :: rest) s = (PollOutcome.err e, s, rest)
    ∧ (pollLoop (WritePollR.err e :: rest) s).2.1.completions = s.completions
    ∧ (pollLoop (WritePollR.err e :: rest) s).2.1.writeStarts = s.writeStarts
    ∧ (pollLoop (WritePollR.err e :: rest) s).2.1.inner.queue = s.inner.queue := by
  have he := pollLoop_writing_err s op tok h e rest
  rw [he]
  exact ⟨rfl, rfl, rfl, rfl⟩

/-- Witness for C7: the write of message 3 fails with error 9 while
message 4 is still queued. -/
theorem write_failure_fatal_witness :
    pollLoop (WritePollR.err 9 :: []) exWriting = (PollOutcome.err 9, exWriting, [])
    ∧ (pollLoop (WritePollR.err 9 :: []) exWriting).2.1.completions = exWriting.completions
    ∧ (pollLoop (WritePollR.err 9 :: []) exWriting).2.1.writeStarts = exWriting.writeStarts
    ∧ (pollLoop (WritePollR.err 9 :: []) exWriting).2.1.inner.queue = exWriting.inner.queue :=
  write_failure_fatal exWriting (0, 3) 0 rfl 9 []

/-- C8: `Sender::len` returns exactly the number of pairs in the pending
queue, and in every reachable state the pair whose write is in flight is
not among them (the driver removed it before starting the write). -/
theorem len_excludes_inflight {W M : Type} {s : Sys W M} (h : Reachable s) :
    len s = s.inner.queue.length
    ∧ ∀ (op : W × M) (tok : Nat), s.state = State.Writing op tok →
        (op.2, tok) ∉ s.inner.queue := by
  obtain ⟨i1, i2, i3⟩ := reachable_inv h
  refine ⟨rfl, ?_⟩
  intro op tok hst hmem
  have hnd : (s.sendLog.map Prod.snd).Nodup := by rw [i3]; exact List.nodup_range _
  rw [i1, List.map_append] at hnd
  have hdisj := List.disjoint_of_nodup_append hnd
  have htok : tok ∈ s.writeStarts.map Prod.snd := by
    rw [i2, hst]
    simp [inflight]
  exact hdisj htok (List.mem_map_of_mem Prod.snd hmem)

/-- Witness for C8 at a concrete reachable state with a write in flight. -/
theorem len_excludes_inflight_witness :
    len exPolled = exPolled.inner.queue.length
    ∧ ∀ (op : Nat × Nat) (tok : Nat), exPolled.state = State.Writing op tok →
        (op.2, tok) ∉ exPolled.inner.queue :=
  len_excludes_inflight (Reachable.step_poll [] (Reachable.step_send 3 (Reachable.init 0))
    (by simp [exSent, pollLoop, send, write_queue]))

/-- C9: cloning a handle increments the live-handle counter by exactly
one and dropping one decrements it by exactly one, and neither touches
anything else: queue contents and order, task slot, driver state, wake
count and all event logs are unchanged - so dropping a handle neither
cancels enqueued messages nor wakes the driver nor triggers termination. -/
theorem clone_drop_frame {W M : Type} (s : Sys W M) (h : 0 < s.inner.sender_count) :
    (cloneSender s).inner.sender_count = s.inner.sender_count + 1
    ∧ (dropSender s).inner.sender_count + 1 = s.inner.sender_count
    ∧ (cloneSender s).inner.queue = s.inner.queue
    ∧ (dropSender s).inner.queue = s.inner.queue
    ∧ (cloneSender s).inner.task = s.inner.task
    ∧ (dropSender s).inner.task = s.inner.task
    ∧ (cloneSender s).state = s.state
    ∧ (dropSender s).state = s.state
    ∧ (cloneSender s).wakeEvents = s.wakeEvents
    ∧ (dropSender s).wakeEvents = s.wakeEvents
    ∧ (cloneSender s).sendLog = s.sendLog
    ∧ (dropSender s).sendLog = s.sendLog
    ∧ (cloneSender s).writeStarts = s.writeStarts
    ∧ (dropSender s).writeStarts = s.writeStarts
    ∧ (cloneSender s).completions = s.completions
    ∧ (dropSender s).completions = s.completions := by
  refine ⟨rfl, ?_, rfl, rfl, rfl, rfl, rfl, rfl, rfl, rfl, rfl, rfl, rfl, rfl, rfl, rfl⟩
  show s.inner.sender_count - 1 + 1 = s.inner.sender_count
  omega

/-- Witness for C9 on a fresh queue (one live handle). -/
theorem clone_drop_frame_witness :
    (cloneSender (write_queue (M := Nat) (0 : Nat))).inner.sender_count
        = (write_queue (M := Nat) (0 : Nat)).inner.sender_count + 1
    ∧ (dropSender (write_queue (M := Nat) (0 : Nat))).inner.sender_count + 1
        = (write_queue (M := Nat) (0 : Nat)).inner.sender_count
    ∧ (cloneSender (write_queue (M := Nat) (0 : Nat))).inner.queue
        = (write_queue (M := Nat) (0 : Nat)).inner.queue
    ∧ (dropSender (write_queue (M := Nat) (0 : Nat))).inner.queue
        = (write_queue (M := Nat) (0 : Nat)).inner.queue
    ∧ (cloneSender (write_queue (M := Nat) (0 : Nat))).inner.task
        = (write_queue (M := Nat) (0 : Nat)).inner.task
    ∧ (dropSender (write_queue (M := Nat) (0 : Nat))).inner.task
        = (write_queue (M := Nat) (0 : Nat)).inner.task
    ∧ (cloneSender (write_queue (M := Nat) (0 : Nat))).state
        = (write_queue (M := Nat) (0 : Nat)).state
    ∧ (dropSender (write_queue (M := Nat) (0 : Nat))).state
        = (write_queue (M := Nat) (0 : Nat)).state
    ∧ (cloneSender (write_queue (M := Nat) (0 : Nat))).wakeEvents
        = (write_queue (M := Nat) (0 : Nat)).wakeEvents
    ∧ (dropSender (write_queue (M := Nat) (0 : Nat))).wakeEvents
        = (write_queue (M := Nat) (0 : Nat)).wakeEvents
    ∧ (cloneSender (write_queue (M := Nat) (0 : Nat))).sendLog
        = (write_queue (M := Nat) (0 : Nat)).sendLog
    ∧ (dropSender (write_queue (M := Nat) (0 : Nat))).sendLog
        = (write_queue (M := Nat) (0 : Nat)).sendLog
    ∧ (cloneSender (write_queue (M := Nat) (0 : Nat))).writeStarts
        = (write_queue (M := Nat) (0 : Nat)).writeStarts
    ∧ (dropSender (write_queue (M := Nat) (0 : Nat))).writeStarts
        = (write_queue (M := Nat) (0 : Nat)).writeStarts
    ∧ (cloneSender (write_queue (M := Nat) (0 : Nat))).completions
        = (write_queue (M := Nat) (0 : Nat)).completions
    ∧ (dropSender (write_queue (M := Nat) (0 : Nat))).completions
        = (write_queue (M := Nat) (0 : Nat)).completions :=
  clone_drop_frame (write_queue 0) (by decide)

/-- C10: the transient `State::Empty` marker is never observable at a
poll boundary: every reachable state (under the executor contract, which
stops polling after a terminal result) has the driver in `Writing` or
`BetweenWrites`, and a `poll` from a reachable state never executes an
`unreachable!` branch, whatever the oracle says. -/
theorem empty_never_observable {W M : Type} {s : Sys W M} (h : Reachable s) :
    ((∃ op tok, s.state = State.Writing op tok) ∨ ∃ w, s.state = State.BetweenWrites w)
    ∧ ∀ (E : Type) (oracle : List (WritePollR E)),
        (pollLoop oracle s).1 ≠ PollOutcome.stuck := by
  have hne := reachable_state_ne h
  constructor
  · cases hst : s.state with
    | Writing op tok => exact Or.inl ⟨op, tok, rfl⟩
    | BetweenWrites w => exact Or.inr ⟨w, rfl⟩
    | Empty => exact absurd hst hne
  · exact fun E oracle => pollLoop_no_stuck oracle s hne

/-- Witness for C10 on a fresh queue. -/
theorem empty_never_observable_witness :
    (((∃ op tok, (write_queue (M := Nat) (0 : Nat)).state = State.Writing op tok)
        ∨ ∃ w, (write_queue (M := Nat) (0 : Nat)).state = State.BetweenWrites w))
    ∧ (pollLoop (E := Nat) [] (write_queue (M := Nat) (0 : Nat))).1 ≠ PollOutcome.stuck :=
  ⟨(empty_never_observable (Reachable.init 0)).1,
   (empty_never_observable (Reachable.init 0)).2 Nat []⟩

end CapnpWriteQueue
